import Mathlib

/-!
Verification of the NoChemicals nutrition-label analysis service.

The development shallowly embeds the core of the repository:
the analysis pipeline of the async analyze route (`cleanJsonResponse`,
`searchPubMedPapers`, `analyzeImage`), the alternate variant's
`extractJsonFromText`, the file-backed `JobStore`
(`createJob` / `updateJob` / `getJob` / `cleanup`), and the two HTTP
handlers (`POST` submit and `GET` status).  Filesystem state is modelled
as an association list from job id to backing-entry content; wall-clock
time (`Date.now()`) is passed explicitly as a `Nat` of milliseconds.
External JSON text from the inference service is parsed by an executable
JSON parser modelling the ECMAScript `JSON.parse` grammar.
-/

/-- JSON values as produced by `JSON.parse`.  Numbers keep their source
lexeme: no claim depends on numeric semantics, only on shape. -/
inductive JsonVal where
  | null
  | bool (b : Bool)
  | num (lexeme : String)
  | str (s : String)
  | arr (elems : List JsonVal)
  | obj (fields : List (String × JsonVal))

/-- The backtick character, written by code point to keep it out of the text. -/
def backtickCh : Char := Char.ofNat 96

/-- The opening-brace character, by code point. -/
def openBrace : Char := Char.ofNat 123

/-- The closing-brace character, by code point. -/
def closeBrace : Char := Char.ofNat 125

/-- JSON insignificant whitespace: space, tab, line feed, carriage return. -/
def jsonWs (c : Char) : Bool :=
  c.toNat = 32 || c.toNat = 9 || c.toNat = 10 || c.toNat = 13

/-- Does the second list start with the first? -/
def startsWithChars : List Char → List Char → Bool
  | [], _ => true
  | _ :: _, [] => false
  | p :: ps, c :: cs => p == c && startsWithChars ps cs

/-- Hexadecimal digit value of a character, if it is one. -/
def hexVal (c : Char) : Option Nat :=
  if 48 ≤ c.toNat ∧ c.toNat ≤ 57 then some (c.toNat - 48)
  else if 65 ≤ c.toNat ∧ c.toNat ≤ 70 then some (c.toNat - 55)
  else if 97 ≤ c.toNat ∧ c.toNat ≤ 102 then some (c.toNat - 87)
  else none

/-- JSON string escapes other than the hexadecimal one. -/
def escChar (c : Char) : Option Char :=
  if c = '"' then some '"'
  else if c = '\\' then some '\\'
  else if c = '/' then some '/'
  else if c = 'b' then some (Char.ofNat 8)
  else if c = 'f' then some (Char.ofNat 12)
  else if c = 'n' then some '\n'
  else if c = 'r' then some (Char.ofNat 13)
  else if c = 't' then some '\t'
  else none

/-- Parse the body of a JSON string literal (the input starts after the
opening quote); returns the decoded characters and the rest of the input
after the closing quote.  Fuel bounds the recursion; any fuel of at least
the input length is enough. -/
def parseStrChars : Nat → List Char → Option (List Char × List Char)
  | 0, _ => none
  | _, [] => none
  | fuel + 1, c :: rest =>
    if c = '"' then some ([], rest)
    else if c.toNat < 32 then none
    else if c = '\\' then
      match rest with
      | [] => none
      | e :: rest2 =>
        if e = 'u' then
          match rest2 with
          | h1 :: h2 :: h3 :: h4 :: rest3 =>
            match hexVal h1, hexVal h2, hexVal h3, hexVal h4 with
            | some a, some b, some c2, some d =>
              match parseStrChars fuel rest3 with
              | some (s, r) => some (Char.ofNat (((a * 16 + b) * 16 + c2) * 16 + d) :: s, r)
              | none => none
            | _, _, _, _ => none
          | _ => none
        else
          match escChar e with
          | some ec =>
            match parseStrChars fuel rest2 with
            | some (s, r) => some (ec :: s, r)
            | none => none
          | none => none
    else
      match parseStrChars fuel rest with
      | some (s, r) => some (c :: s, r)
      | none => none

/-- Take a maximal run of decimal digits. -/
def takeDigits : List Char → List Char × List Char
  | [] => ([], [])
  | c :: rest =>
    if 48 ≤ c.toNat ∧ c.toNat ≤ 57 then
      let (ds, r) := takeDigits rest
      (c :: ds, r)
    else ([], c :: rest)

/-- Is the character a decimal digit? -/
def isDigitCh (c : Char) : Bool := 48 ≤ c.toNat && c.toNat ≤ 57

/-- Integer part of a JSON number: a single zero, or a nonzero digit
followed by digits (JSON rejects leading zeros). -/
def parseIntPart : List Char → Option (List Char × List Char)
  | [] => none
  | c :: rest =>
    if c = '0' then some ([c], rest)
    else if isDigitCh c then
      let (ds, r) := takeDigits rest
      some (c :: ds, r)
    else none

/-- Optional fraction part of a JSON number. -/
def parseFracPart (cs : List Char) : Option (List Char × List Char) :=
  match cs with
  | c :: rest =>
    if c = '.' then
      let (ds, r) := takeDigits rest
      if ds = [] then none else some (c :: ds, r)
    else some ([], cs)
  | [] => some ([], [])

/-- Optional exponent part of a JSON number. -/
def parseExpPart (cs : List Char) : Option (List Char × List Char) :=
  match cs with
  | c :: rest =>
    if c = 'e' ∨ c = 'E' then
      match rest with
      | s :: rest2 =>
        if s = '+' ∨ s = '-' then
          let (ds, r) := takeDigits rest2
          if ds = [] then none else some (c :: s :: ds, r)
        else
          let (ds, r) := takeDigits rest
          if ds = [] then none else some (c :: ds, r)
      | [] => none
    else some ([], cs)
  | [] => some ([], [])

/-- A complete JSON number; returns its lexeme and the rest of the input. -/
def parseNumber (cs : List Char) : Option (List Char × List Char) :=
  let (sgn, cs1) := match cs with
    | c :: rest => if c = '-' then ([c], rest) else (([] : List Char), c :: rest)
    | [] => ([], [])
  match parseIntPart cs1 with
  | none => none
  | some (ip, cs2) =>
    match parseFracPart cs2 with
    | none => none
    | some (fp, cs3) =>
      match parseExpPart cs3 with
      | none => none
      | some (ep, cs4) => some (sgn ++ ip ++ fp ++ ep, cs4)

mutual

/-- Parse one JSON value after skipping leading whitespace.  Fuel strictly
decreases on every nested call; any fuel of at least twice the input
length plus two is enough. -/
def parseVal : Nat → List Char → Option (JsonVal × List Char)
  | 0, _ => none
  | fuel + 1, cs0 =>
    let cs := cs0.dropWhile jsonWs
    match cs with
    | [] => none
    | c :: rest =>
      if c = '"' then
        match parseStrChars (rest.length + 1) rest with
        | some (s, r) => some (JsonVal.str (String.mk s), r)
        | none => none
      else if c = openBrace then
        let rest2 := rest.dropWhile jsonWs
        if startsWithChars [closeBrace] rest2 then
          some (JsonVal.obj [], rest2.drop 1)
        else
          match parseObjFields fuel rest with
          | some (fs, r) => some (JsonVal.obj fs, r)
          | none => none
      else if c = '[' then
        let rest2 := rest.dropWhile jsonWs
        if startsWithChars [']'] rest2 then
          some (JsonVal.arr [], rest2.drop 1)
        else
          match parseArrElems fuel rest with
          | some (vs, r) => some (JsonVal.arr vs, r)
          | none => none
      else if startsWithChars ['t', 'r', 'u', 'e'] cs then some (JsonVal.bool true, cs.drop 4)
      else if startsWithChars ['f', 'a', 'l', 's', 'e'] cs then some (JsonVal.bool false, cs.drop 5)
      else if startsWithChars ['n', 'u', 'l', 'l'] cs then some (JsonVal.null, cs.drop 4)
      else
        match parseNumber cs with
        | some (lex, r) => some (JsonVal.num (String.mk lex), r)
        | none => none

/-- Parse the elements of a nonempty JSON array (input starts after the
opening bracket). -/
def parseArrElems : Nat → List Char → Option (List JsonVal × List Char)
  | 0, _ => none
  | fuel + 1, cs =>
    match parseVal fuel cs with
    | none => none
    | some (v, r0) =>
      let r := r0.dropWhile jsonWs
      match r with
      | c :: r2 =>
        if c = ',' then
          match parseArrElems fuel r2 with
          | some (vs, r3) => some (v :: vs, r3)
          | none => none
        else if c = ']' then some ([v], r2)
        else none
      | [] => none

/-- Parse the fields of a nonempty JSON object (input starts after the
opening brace). -/
def parseObjFields : Nat → List Char → Option (List (String × JsonVal) × List Char)
  | 0, _ => none
  | fuel + 1, cs0 =>
    let cs := cs0.dropWhile jsonWs
    match cs with
    | c :: rest =>
      if c = '"' then
        match parseStrChars (rest.length + 1) rest with
        | none => none
        | some (k, r0) =>
          let r := r0.dropWhile jsonWs
          match r with
          | c2 :: r2 =>
            if c2 = ':' then
              match parseVal fuel r2 with
              | none => none
              | some (v, r3a) =>
                let r3 := r3a.dropWhile jsonWs
                match r3 with
                | c3 :: r4 =>
                  if c3 = ',' then
                    match parseObjFields fuel r4 with
                    | some (fs, r5) => some ((String.mk k, v) :: fs, r5)
                    | none => none
                  else if c3 = closeBrace then some ([(String.mk k, v)], r4)
                  else none
                | [] => none
            else none
          | [] => none
      else none
    | [] => none

end

/-- The `JSON.parse` builtin: the whole input, up to surrounding
whitespace, must be one JSON value. -/
def JsonVal.parse (s : String) : Option JsonVal :=
  match parseVal ((s.length + 2) * 2) s.data with
  | some (v, r) => if r.dropWhile jsonWs = [] then some v else none
  | none => none

/-- Property access on a parsed object: with duplicate keys, `JSON.parse`
keeps the last occurrence. -/
def lookupField : List (String × JsonVal) → String → Option JsonVal
  | [], _ => none
  | (k, v) :: rest, key =>
    match lookupField rest key with
    | some v2 => some v2
    | none => if k = key then some v else none

/-- JavaScript property read `j.key`: defined only on objects; on every
other value the read yields `undefined` (or throws on `null`), which the
call sites turn into a failure. -/
def JsonVal.getField : JsonVal → String → Option JsonVal
  | .obj fields, key => lookupField fields key
  | _, _ => none

/-- A reference citation, `\x7btitle, url\x7d` in the source types. -/
structure Paper where
  title : String
  url : String
deriving DecidableEq

/-- An ingredient of the returned `AnalysisResult`, as typed in both the
store and the analyze route.  `classification` is a plain string at
runtime: the route never checks it against the closed set. -/
structure Ingredient where
  name : String
  classification : String
  explanation : String
  papers : List Paper
deriving DecidableEq

/-- The externally delegated payload of a completed job. -/
structure AnalysisResult where
  ingredients : List Ingredient
deriving DecidableEq

/-- Source `cleanJsonResponse` / the cleanup inlined in
`extractJsonFromText`: the global regex replace removing every
occurrence of three backticks followed by `json` (plus an optional
newline), or of three backticks (preceded by an optional newline), with
alternatives tried in that order at each position, scanning left to
right; fuel bounds the recursion and any fuel of at least the input
length is enough. -/
def stripFencesAux : Nat → List Char → List Char
  | 0, cs => cs
  | _, [] => []
  | fuel + 1, c :: cs =>
    if c = backtickCh ∧
        startsWithChars [backtickCh, backtickCh, 'j', 's', 'o', 'n'] cs then
      match cs.drop 6 with
      | nl :: rest => if nl = '\n' then stripFencesAux fuel rest
                      else stripFencesAux fuel (nl :: rest)
      | [] => []
    else if c = '\n' ∧ startsWithChars [backtickCh, backtickCh, backtickCh] cs then
      stripFencesAux fuel (cs.drop 3)
    else if c = backtickCh ∧ startsWithChars [backtickCh, backtickCh] cs then
      stripFencesAux fuel (cs.drop 2)
    else
      c :: stripFencesAux fuel cs

/-- Entry point of the fence-stripping replace. -/
def stripFences (cs : List Char) : List Char := stripFencesAux (cs.length + 1) cs

/-- The character set removed by the JavaScript `String.prototype.trim`
(ASCII whitespace and the no-break space; wider Unicode space classes do
not occur in the inputs considered here). -/
def jsTrimWs (c : Char) : Bool :=
  c.toNat = 32 || c.toNat = 9 || c.toNat = 10 || c.toNat = 13 ||
  c.toNat = 11 || c.toNat = 12 || c.toNat = 160

/-- Trim leading and trailing whitespace. -/
def trimChars (cs : List Char) : List Char :=
  ((cs.dropWhile jsTrimWs).reverse.dropWhile jsTrimWs).reverse

/-- Source `cleanJsonResponse` (async analyze route): remove markdown
code-block markers if present, then trim. -/
def cleanJsonResponse (text : String) : String :=
  String.mk (trimChars (stripFences text.data))

/-- Uppercase hexadecimal digit character. -/
def hexDigitChar (n : Nat) : Char :=
  if n < 10 then Char.ofNat (48 + n) else Char.ofNat (55 + n)

/-- Percent-encoding of one byte. -/
def byteHex (b : Nat) : List Char :=
  [Char.ofNat 37, hexDigitChar (b / 16), hexDigitChar (b % 16)]

/-- UTF-8 bytes of a Unicode scalar value. -/
def utf8Bytes (n : Nat) : List Nat :=
  if n < 128 then [n]
  else if n < 2048 then [192 + n / 64, 128 + n % 64]
  else if n < 65536 then [224 + n / 4096, 128 + (n / 64) % 64, 128 + n % 64]
  else [240 + n / 262144, 128 + (n / 4096) % 64, 128 + (n / 64) % 64, 128 + n % 64]

/-- The characters `encodeURIComponent` leaves unescaped: letters,
digits, and (by code point) hyphen, underscore, dot, exclamation mark,
tilde, asterisk, apostrophe, parentheses. -/
def uriUnreserved (c : Char) : Bool :=
  (65 ≤ c.toNat && c.toNat ≤ 90) || (97 ≤ c.toNat && c.toNat ≤ 122) ||
  (48 ≤ c.toNat && c.toNat ≤ 57) ||
  c.toNat = 45 || c.toNat = 95 || c.toNat = 46 || c.toNat = 33 ||
  c.toNat = 126 || c.toNat = 42 || c.toNat = 39 || c.toNat = 40 || c.toNat = 41

/-- The `encodeURIComponent` builtin: unreserved characters pass through,
everything else is percent-encoded byte by byte. -/
def encodeURIComponent (s : String) : String :=
  String.mk (s.data.map (fun c =>
    if uriUnreserved c then [c]
    else ((utf8Bytes c.toNat).map byteHex).flatten)).flatten

/-- The PubMed search base URL of the source `searchPubMedPapers`. -/
def pubmedBaseUrl : String := "https://pubmed.ncbi.nlm.nih.gov/?term="

/-- Source `searchPubMedPapers`: synthesizes exactly one citation from
the ingredient name. -/
def searchPubMedPapers (ingredient : String) : List Paper :=
  [{ title := "Research about " ++ ingredient,
     url := pubmedBaseUrl ++ encodeURIComponent ingredient }]

mutual

/-- JavaScript template-literal stringification of a JSON-derived value,
as in the `Research about` title: strings pass through, `null`,
booleans and numbers print their literal, arrays join their elements
with commas, objects print `[object Object]`. -/
def jsTemplateShow : JsonVal → String
  | .null => "null"
  | .bool true => "true"
  | .bool false => "false"
  | .num s => s
  | .str s => s
  | .arr xs => String.intercalate "," (jsTemplateShowList xs)
  | .obj _ => "[object Object]"

/-- Element stringification inside an array join, where `null` prints as
the empty string. -/
def jsTemplateShowList : List JsonVal → List String
  | [] => []
  | JsonVal.null :: xs => "" :: jsTemplateShowList xs
  | x :: xs => jsTemplateShow x :: jsTemplateShowList xs

end

/-- Read a field of a parsed array element the way the route's strings
consume it (`Research about` and the search term): a string field passes
through; any other present value stringifies as in a template literal; a
missing field reads as `undefined`, which stringifies as shown.  This is
only the string view of a property read on a non-null value: reading a
property of JSON `null` throws in the source, which `analyzeImageRun`
models by failing before any element is rendered. -/
def jsFieldString (j : JsonVal) (key : String) : String :=
  match j.getField key with
  | some (JsonVal.str s) => s
  | some v => jsTemplateShow v
  | none => "undefined"

/-- The `ingredients` member access plus `.map` of the async analyze
route: anything other than a present array value makes the surrounding
`try` fail (`null` access throws, `undefined.map` and non-array `.map`
throw), which the route reports as its parse-failure error. -/
def ingredientsArrayOf (j : JsonVal) : Option (List JsonVal) :=
  match j.getField "ingredients" with
  | some (JsonVal.arr xs) => some xs
  | _ => none

/-- One result entry of the async analyze route: the spread of a
(non-null) parsed element together with the synthesized `papers`.  The
route validates nothing about `name`, `classification` or `explanation`.
The `papers` component is exactly the source's, built from the same
string the source interpolates for `ingredient.name`.  For the three
record fields the typed structure stores that interpolated string view;
the source spread instead keeps the raw element (a missing key stays
missing rather than becoming a string), so field-level equalities are
asserted below only where a present string field makes the two agree.
JSON `null` elements never reach this function: `analyzeImageRun` fails
on them first, as the source throws. -/
def mkResultIngredient (e : JsonVal) : Ingredient :=
  { name := jsFieldString e "name"
    classification := jsFieldString e "classification"
    explanation := jsFieldString e "explanation"
    papers := searchPubMedPapers (jsFieldString e "name") }

/-- Is the parsed value JSON `null`?  A null array element makes the
source's map callback throw a `TypeError` on `ingredient.name`, so
`await Promise.all` rejects and the whole call fails. -/
def isNullVal : JsonVal → Bool
  | JsonVal.null => true
  | _ => false

/-- Source `analyzeImage` from the point the external service's text
content is in hand, with the message of the error it throws on failure:
empty content throws `No content in response`; a cleaned text that does
not parse, an `ingredients` member that is not an array (its `.map`
throws), and a JSON `null` array element (property access throws) all
land in the same catch, which rethrows `Failed to parse analysis
results`.  On success every (non-null) element is kept with its PubMed
papers attached.  The transport to the external service (and its
timeout) is outside this function, as in the source. -/
def analyzeImageRun (content : String) : Except String AnalysisResult :=
  if content = "" then Except.error "No content in response"
  else
    match JsonVal.parse (cleanJsonResponse content) with
    | none => Except.error "Failed to parse analysis results"
    | some parsed =>
      match ingredientsArrayOf parsed with
      | none => Except.error "Failed to parse analysis results"
      | some elems =>
        if elems.any isNullVal then Except.error "Failed to parse analysis results"
        else Except.ok { ingredients := elems.map mkResultIngredient }

/-- The success view of `analyzeImageRun`: `none` models the thrown
`AnalysisError`, whatever its message. -/
def analyzeImageFromText (content : String) : Option AnalysisResult :=
  match analyzeImageRun content with
  | Except.ok r => some r
  | Except.error _ => none

/-- The regex fallback of the alternate route's `extractJsonFromText`:
the greedy pattern matching from the first opening brace to the last
closing brace of the text, if that span is nonempty. -/
def jsonObjectMatch (cs : List Char) : Option (List Char) :=
  let suf := cs.dropWhile (fun c => c != openBrace)
  match suf.reverse.dropWhile (fun c => c != closeBrace) with
  | [] => none
  | r => some r.reverse

/-- Source `extractJsonFromText` (alternate two-call route): clean the
text exactly as `cleanJsonResponse` does, try a direct parse, and on
failure parse the greedy regex match; `none` models the `null` return. -/
def extractJsonFromText (text : String) : Option JsonVal :=
  let cleanText := cleanJsonResponse text
  match JsonVal.parse cleanText with
  | some v => some v
  | none =>
    match jsonObjectMatch cleanText.data with
    | some m => JsonVal.parse (String.mk m)
    | none => none

/-- Scan for the brace matching the already-seen opening braces,
accumulating the consumed characters. -/
def braceScanAux : Nat → List Char → List Char → Option (List Char)
  | _, _, [] => none
  | depth, acc, c :: rest =>
    if c = openBrace then braceScanAux (depth + 1) (c :: acc) rest
    else if c = closeBrace then
      if depth = 1 then some (c :: acc).reverse
      else braceScanAux (depth - 1) (c :: acc) rest
    else braceScanAux depth (c :: acc) rest

/-- Modelled from the spec: the parse fallback the spec describes —
"locate the first top-level `\x7b...\x7d` object by brace-matching and
parse that" — which no function of the repository implements (the source
fallback is the greedy first-brace-to-last-brace regex above).  Used only
to compare the spec's described behaviour with the source's. -/
def firstTopLevelObject (s : String) : Option String :=
  match s.data.dropWhile (fun c => c != openBrace) with
  | [] => none
  | c :: rest => (braceScanAux 1 [c] rest).map String.mk

/-- Job status from `store.ts`. -/
inductive JobStatus where
  | pending
  | processing
  | completed
  | failed
deriving DecidableEq

/-- An `AnalysisJob` record as stored: `result` is present only when
written, likewise `error`; `timestamp` is a `Date.now()` value in
milliseconds. -/
structure AnalysisJob where
  status : JobStatus
  result : Option AnalysisResult := none
  error : Option String := none
  timestamp : Nat
deriving DecidableEq

/-- Content of one backing file of the store: `some job` when the file
holds the JSON of a job record, `none` when it is unreadable or does not
parse (the store only ever distinguishes these two cases: every failure
of `readFileSync` or `JSON.parse` lands in a catch). -/
abbrev JobFile := Option AnalysisJob

/-- The store's backing directory: one entry per job id. -/
abbrev Store := List (String × JobFile)

/-- Read the entry of an id, if present. -/
def lookupEntry : Store → String → Option JobFile
  | [], _ => none
  | (k, f) :: rest, id => if k = id then some f else lookupEntry rest id

/-- Delete the entry of an id (`fs.unlinkSync`). -/
def removeEntry : Store → String → Store
  | [], _ => []
  | (k, f) :: rest, id =>
    if k = id then removeEntry rest id else (k, f) :: removeEntry rest id

/-- Write the entry of an id (`fs.writeFileSync`), replacing any
previous entry. -/
def setEntry (st : Store) (id : String) (f : JobFile) : Store :=
  (id, f) :: removeEntry st id

/-- The retention window: one hour of milliseconds, as written in the
source (`60 * 60 * 1000`). -/
def retentionMs : Nat := 60 * 60 * 1000

/-- Source `JobStore.createJob`: unconditionally writes a fresh
`pending` record stamped with the current time. -/
def createJob (now : Nat) (st : Store) (id : String) : Store :=
  setEntry st id (some { status := JobStatus.pending, timestamp := now })

/-- Source `JobStore.getJob`: absent entry, or unreadable/unparseable
entry, reads as absent; an entry whose age strictly exceeds the
retention window is deleted and reads as absent; otherwise the record is
returned.  The returned store is the backing state after the read. -/
def getJob (now : Nat) (st : Store) (id : String) : Store × Option AnalysisJob :=
  match lookupEntry st id with
  | none => (st, none)
  | some none => (st, none)
  | some (some job) =>
    if now - job.timestamp > retentionMs then (removeEntry st id, none)
    else (st, some job)

/-- A `Partial<AnalysisJob>` argument of `updateJob`: a field is merged
only when present.  The `timestamp` member some callers pass is listed
for fidelity but is always overwritten, because the source spreads
`\x7b...existingJob, ...update, timestamp: Date.now()\x7d` with the
fresh timestamp last. -/
structure JobUpdate where
  status : Option JobStatus := none
  result : Option AnalysisResult := none
  error : Option String := none
  timestamp : Option Nat := none
deriving DecidableEq

/-- The spread merge of `updateJob`: update fields win where present,
and the timestamp is unconditionally refreshed. -/
def mergeJob (job : AnalysisJob) (u : JobUpdate) (now : Nat) : AnalysisJob :=
  { status := match u.status with | some s => s | none => job.status
    result := match u.result with | some r => some r | none => job.result
    error := match u.error with | some e => some e | none => job.error
    timestamp := now }

/-- Source `JobStore.updateJob`: read through `getJob` (which may itself
delete an expired entry), then merge and write back when a record was
found, and otherwise only log a warning. -/
def updateJob (now : Nat) (st : Store) (id : String) (u : JobUpdate) : Store :=
  match getJob now st id with
  | (st1, some job) => setEntry st1 id (some (mergeJob job u now))
  | (st1, none) => st1

/-- Source `JobStore.cleanup`: sweep every entry, deleting records whose
timestamp is strictly older than one hour ago and entries that cannot be
read or parsed. -/
def cleanup (now : Nat) : Store → Store
  | [] => []
  | (id, some job) :: rest =>
    if job.timestamp < now - retentionMs then cleanup now rest
    else (id, some job) :: cleanup now rest
  | (_, none) :: rest => cleanup now rest

/-- The record the store holds for an id, reading a missing or
unparseable entry as no record. -/
def jobRecord (st : Store) (id : String) : Option AnalysisJob :=
  match lookupEntry st id with
  | some (some job) => some job
  | _ => none

/-- Response of the submit endpoint, as the orchestration logic shapes
it: an HTTP status plus the `jobId` or `error` body field. -/
structure SubmitResponse where
  status : Nat
  jobId : Option String
  error : Option String
deriving DecidableEq

/-- The status update to `processing` issued by the submit endpoint
before detaching the pipeline. -/
def procUpdate : JobUpdate := { status := some JobStatus.processing }

/-- Source `POST` of the analyze route, synchronous part: with no image
in the form data, respond 400 before touching the store; otherwise
create the job `pending`, flip it to `processing`, and respond with the
job id immediately (the detached pipeline task is modelled separately,
as it runs after this response).  The image payload itself never
influences the store, so it is modelled as an opaque presence flag; the
two `Date.now()` reads are the explicit `t0` and `t1`. -/
def postSubmit (image : Option Unit) (jobId : String) (t0 t1 : Nat) (st : Store) :
    SubmitResponse × Store :=
  match image with
  | none => ({ status := 400, jobId := none, error := some "No image provided" }, st)
  | some _ =>
    let st1 := createJob t0 st jobId
    let st2 := updateJob t1 st1 jobId procUpdate
    ({ status := 200, jobId := some jobId, error := none }, st2)

/-- Outcome of the detached pipeline run: `analyzeImage` either returns
a result or throws with a message (timeout, transport failure, parse
failure alike reach the same catch). -/
inductive PipelineOutcome where
  | ok (r : AnalysisResult)
  | err (msg : String)
deriving DecidableEq

/-- Source detached task body of `POST`: the try arm writes `completed`
with the result, the catch arm writes `failed` with the error message;
both go through `updateJob` and nothing escapes the task. -/
def detachedTask (id : String) (out : PipelineOutcome) (now : Nat) (st : Store) : Store :=
  match out with
  | PipelineOutcome.ok r =>
    updateJob now st id
      { status := some JobStatus.completed, result := some r, timestamp := some now }
  | PipelineOutcome.err msg =>
    updateJob now st id
      { status := some JobStatus.failed, error := some msg, timestamp := some now }

/-- Response of the status endpoint. -/
structure StatusResponse where
  status : Nat
  error : Option String
  job : Option AnalysisJob
deriving DecidableEq

/-- Source `GET` of the status route: 400 without a job id, 404 when the
store reads the job as absent, otherwise the record verbatim. -/
def statusGet (jobId : Option String) (now : Nat) (st : Store) : StatusResponse × Store :=
  match jobId with
  | none => ({ status := 400, error := some "No jobId provided", job := none }, st)
  | some id =>
    match getJob now st id with
    | (st1, none) => ({ status := 404, error := some "Job not found", job := none }, st1)
    | (st1, some job) => ({ status := 200, error := none, job := some job }, st1)

/-- One store operation, for reasoning about arbitrary interleavings of
the store's public interface. -/
inductive StoreOp where
  | create (id : String) (now : Nat)
  | update (id : String) (u : JobUpdate) (now : Nat)
  | readJob (id : String) (now : Nat)
  | sweep (now : Nat)
deriving DecidableEq

/-- Effect of one operation on the backing state. -/
def applyOp (st : Store) : StoreOp → Store
  | StoreOp.create id now => createJob now st id
  | StoreOp.update id u now => updateJob now st id u
  | StoreOp.readJob id now => (getJob now st id).1
  | StoreOp.sweep now => cleanup now st

/-- Run a sequence of store operations. -/
def runOps : Store → List StoreOp → Store
  | st, [] => st
  | st, op :: ops => runOps (applyOp st op) ops

/-- Does the operation create the given id? -/
def createsId : StoreOp → String → Bool
  | StoreOp.create i _, k => i == k
  | _, _ => false

/-- Ranking of statuses along the forward-only lifecycle: both terminal
statuses rank above `processing`. -/
def statusRank : JobStatus → Nat
  | JobStatus.pending => 0
  | JobStatus.processing => 1
  | JobStatus.completed => 2
  | JobStatus.failed => 2

/-- Is the status terminal? -/
def isTerminal : JobStatus → Bool
  | JobStatus.completed => true
  | JobStatus.failed => true
  | _ => false

/-- One observation step of a job's stored record moves forward: a live
record never lowers its rank, a terminal record is never changed, and a
deleted (or never-present) record never reappears. -/
def forwardStep : Option AnalysisJob → Option AnalysisJob → Prop
  | some a, some b => statusRank a.status ≤ statusRank b.status ∧ (isTerminal a.status = true → a = b)
  | some _, none => True
  | none, some _ => False
  | none, none => True

/-- Mutual exclusion of `result` and `error`, consistent with the
status, for a record if present. -/
def exclusiveOpt : Option AnalysisJob → Prop
  | none => True
  | some j =>
    (j.result = none ∨ j.error = none) ∧
    (j.result ≠ none → j.status = JobStatus.completed) ∧
    (j.error ≠ none → j.status = JobStatus.failed)

/-- A service response whose single ingredient carries the
classification `unhealthy`, outside the closed set. -/
def unhealthyResponse : String :=
  "\x7b\"ingredients\": [\x7b\"name\": \"Sugar\", \"classification\": \"unhealthy\", \"explanation\": \"bad\"\x7d]\x7d"

/-- The parsed ingredient object of `unhealthyResponse`. -/
def unhealthyElem : JsonVal :=
  JsonVal.obj [("name", JsonVal.str "Sugar"), ("classification", JsonVal.str "unhealthy"),
               ("explanation", JsonVal.str "bad")]

/-- The parsed top-level object of `unhealthyResponse`. -/
def unhealthyParsed : JsonVal :=
  JsonVal.obj [("ingredients", JsonVal.arr [unhealthyElem])]

/-- A response containing two top-level JSON objects separated by prose:
the first object alone is valid JSON, but the span from the first brace
to the last brace is not. -/
def twoObjectResponse : String :=
  "\x7b\"a\": \"x\"\x7d and \x7b\"b\": \"y\"\x7d"

/-- A valid-JSON response wrapped in a markdown code fence. -/
def fencedResponse : String :=
  "```json\n\x7b\"ingredients\": []\x7d\n```"

/-- A well-formed service response with one healthy ingredient. -/
def healthyResponse : String :=
  "\x7b\"ingredients\": [\x7b\"name\": \"Oat Fiber\", \"classification\": \"healthy\", \"explanation\": \"fine\"\x7d]\x7d"

/-- The parsed ingredient object of `healthyResponse`. -/
def healthyElem : JsonVal :=
  JsonVal.obj [("name", JsonVal.str "Oat Fiber"), ("classification", JsonVal.str "healthy"),
               ("explanation", JsonVal.str "fine")]

/-- A store holding one entry whose record is too old to be live. -/
def expiredStore : Store :=
  [("a", some { status := JobStatus.pending, timestamp := 0 })]

/-- A store holding one finished job, for the overwrite witness. -/
def finishedStore : Store :=
  [("a", some { status := JobStatus.completed, result := some { ingredients := [] },
                timestamp := 3 })]

/-- A live processing record, as the detached task finds it. -/
def processingJob : AnalysisJob := { status := JobStatus.processing, timestamp := 3 }

theorem lookup_set_self (st : Store) (id : String) (f : JobFile) :
    lookupEntry (setEntry st id f) id = some f := by
  simp [setEntry, lookupEntry]

theorem lookup_remove_self (st : Store) (id : String) :
    lookupEntry (removeEntry st id) id = none := by
  induction st with
  | nil => rfl
  | cons e rest ih =>
    obtain ⟨k, f⟩ := e
    by_cases h : k = id <;> simp [removeEntry, h, lookupEntry, ih]

theorem lookup_remove_ne (st : Store) (id k : String) (h : k ≠ id) :
    lookupEntry (removeEntry st id) k = lookupEntry st k := by
  induction st with
  | nil => rfl
  | cons e rest ih =>
    obtain ⟨k2, f⟩ := e
    by_cases h2 : k2 = id
    · subst h2
      simp [removeEntry, lookupEntry, Ne.symm h, ih]
    · by_cases h3 : k2 = k <;> simp [removeEntry, h2, lookupEntry, h3, h, ih]

theorem lookup_set_ne (st : Store) (id k : String) (f : JobFile) (h : k ≠ id) :
    lookupEntry (setEntry st id f) k = lookupEntry st k := by
  simp [setEntry, lookupEntry, Ne.symm h, lookup_remove_ne st id k h]

theorem lookup_remove_none (st : Store) (id k : String)
    (h : lookupEntry st k = none) : lookupEntry (removeEntry st id) k = none := by
  by_cases hk : k = id
  · subst hk; exact lookup_remove_self st k
  · rw [lookup_remove_ne st id k hk]; exact h

theorem cleanup_cons_some (now : Nat) (id : String) (job : AnalysisJob) (rest : Store) :
    cleanup now ((id, some job) :: rest) =
      if job.timestamp < now - retentionMs then cleanup now rest
      else (id, some job) :: cleanup now rest := rfl

theorem cleanup_cons_none (now : Nat) (id : String) (rest : Store) :
    cleanup now ((id, none) :: rest) = cleanup now rest := rfl

theorem lookup_cleanup_none (now : Nat) (st : Store) (k : String)
    (h : lookupEntry st k = none) : lookupEntry (cleanup now st) k = none := by
  induction st with
  | nil => rfl
  | cons e rest ih =>
    obtain ⟨id, f⟩ := e
    have hne : ¬ id = k := by
      intro he
      simp [lookupEntry, he] at h
    have hrest : lookupEntry rest k = none := by
      simpa [lookupEntry, hne] using h
    cases f with
    | none => simpa [cleanup_cons_none] using ih hrest
    | some job =>
      rw [cleanup_cons_some]
      by_cases hold : job.timestamp < now - retentionMs
      · rw [if_pos hold]
        exact ih hrest
      · rw [if_neg hold]
        simp [lookupEntry, hne, ih hrest]

theorem lookup_getJob_fst_none (now : Nat) (st : Store) (id k : String)
    (h : lookupEntry st k = none) : lookupEntry (getJob now st id).1 k = none := by
  unfold getJob
  cases hl : lookupEntry st id with
  | none => exact h
  | some f =>
    cases f with
    | none => exact h
    | some job =>
      by_cases hold : now - job.timestamp > retentionMs <;>
        simp [hold, h, lookup_remove_none st id k h]

theorem lookup_updateJob_none (now : Nat) (st : Store) (id : String) (u : JobUpdate)
    (k : String) (h : lookupEntry st k = none) :
    lookupEntry (updateJob now st id u) k = none := by
  by_cases hk : k = id
  · subst hk
    simp [updateJob, getJob, h]
  · unfold updateJob getJob
    cases hl : lookupEntry st id with
    | none => exact h
    | some f =>
      cases f with
      | none => exact h
      | some job =>
        by_cases hold : now - job.timestamp > retentionMs
        · simpa [hold] using lookup_remove_none st id k h
        · simp [hold, lookup_set_ne st id k _ hk, h]

theorem lookup_applyOp_none (st : Store) (op : StoreOp) (k : String)
    (hop : createsId op k = false) (h : lookupEntry st k = none) :
    lookupEntry (applyOp st op) k = none := by
  cases op with
  | create id now =>
    have hne : k ≠ id := by
      intro he
      subst he
      simp [createsId] at hop
    simpa [applyOp, createJob, lookup_set_ne st id k _ hne] using h
  | update id u now => exact lookup_updateJob_none now st id u k h
  | readJob id now => exact lookup_getJob_fst_none now st id k h
  | sweep now => exact lookup_cleanup_none now st k h

theorem lookup_runOps_none (ops : List StoreOp) (st : Store) (k : String)
    (hops : ∀ op ∈ ops, createsId op k = false) (h : lookupEntry st k = none) :
    lookupEntry (runOps st ops) k = none := by
  induction ops generalizing st with
  | nil => exact h
  | cons op rest ih =>
    exact ih (applyOp st op) (fun o ho => hops o (List.mem_cons_of_mem op ho))
      (lookup_applyOp_none st op k (hops op (List.mem_cons_self op rest)) h)

theorem updateJob_entry_absent (now : Nat) (st : Store) (id : String) (u : JobUpdate)
    (h : lookupEntry st id = none) : updateJob now st id u = st := by
  simp [updateJob, getJob, h]

theorem updateJob_entry_corrupt (now : Nat) (st : Store) (id : String) (u : JobUpdate)
    (h : lookupEntry st id = some none) : updateJob now st id u = st := by
  simp [updateJob, getJob, h]

theorem updateJob_live (now : Nat) (st : Store) (id : String) (u : JobUpdate)
    (job : AnalysisJob) (h : lookupEntry st id = some (some job))
    (hexp : ¬ now - job.timestamp > retentionMs) :
    updateJob now st id u = setEntry st id (some (mergeJob job u now)) := by
  simp [updateJob, getJob, h, hexp]

theorem updateJob_expired (now : Nat) (st : Store) (id : String) (u : JobUpdate)
    (job : AnalysisJob) (h : lookupEntry st id = some (some job))
    (hexp : now - job.timestamp > retentionMs) :
    updateJob now st id u = removeEntry st id := by
  simp [updateJob, getJob, h, hexp]

/-- Claim C3: `getJob(id)` returns absent for every id never passed to
`createJob` (over any run of store operations from a state not holding
the id); returns absent and eagerly deletes the backing entry when the
stored record's age `now - timestamp` strictly exceeds the one-hour
retention window; returns absent, without failing, when the backing
entry is unreadable or unparseable; and otherwise returns the stored
record with the store untouched. -/
theorem getJob_contract :
    (∀ (st0 : Store) (ops : List StoreOp) (k : String) (now : Nat),
       lookupEntry st0 k = none → (∀ op ∈ ops, createsId op k = false) →
       getJob now (runOps st0 ops) k = (runOps st0 ops, none)) ∧
    (∀ (st : Store) (k : String) (job : AnalysisJob) (now : Nat),
       lookupEntry st k = some (some job) → now - job.timestamp > retentionMs →
       getJob now st k = (removeEntry st k, none)) ∧
    (∀ (st : Store) (k : String) (now : Nat),
       lookupEntry st k = some none → getJob now st k = (st, none)) ∧
    (∀ (st : Store) (k : String) (job : AnalysisJob) (now : Nat),
       lookupEntry st k = some (some job) → ¬ now - job.timestamp > retentionMs →
       getJob now st k = (st, some job)) := by
  refine ⟨?_, ?_, ?_, ?_⟩
  · intro st0 ops k now h0 hops
    have h : lookupEntry (runOps st0 ops) k = none := lookup_runOps_none ops st0 k hops h0
    simp [getJob, h]
  · intro st k job now hl hexp
    simp [getJob, hl, hexp]
  · intro st k now hl
    simp [getJob, hl]
  · intro st k job now hl hexp
    simp [getJob, hl, hexp]

theorem getJob_contract_witness :
    getJob 9 (runOps [] [StoreOp.create "a" 0, StoreOp.sweep 2]) "b"
      = (runOps [] [StoreOp.create "a" 0, StoreOp.sweep 2], none) ∧
    getJob (retentionMs + 1) expiredStore "a" = (removeEntry expiredStore "a", none) ∧
    getJob 9 [("c", (none : JobFile))] "c" = ([("c", (none : JobFile))], none) ∧
    getJob 9 expiredStore "a"
      = (expiredStore, some { status := JobStatus.pending, timestamp := 0 }) :=
  ⟨getJob_contract.1 [] [StoreOp.create "a" 0, StoreOp.sweep 2] "b" 9 rfl (by decide),
   getJob_contract.2.1 expiredStore "a" _ (retentionMs + 1) rfl (by decide),
   getJob_contract.2.2.1 [("c", none)] "c" 9 rfl,
   getJob_contract.2.2.2 expiredStore "a" _ 9 rfl (by decide)⟩

/-- Claim C4 counterexample: an id whose backing entry exists but is
expired.  The store reads the id as absent, yet `updateJob` does not
leave the store unchanged — its internal read deletes the entry; nor
does it merge-and-write-back for this existing entry. -/
theorem updateJob_counterexample :
    (getJob (retentionMs + 1) expiredStore "a").2 = none ∧
    updateJob (retentionMs + 1) expiredStore "a" procUpdate = [] ∧
    ([] : Store) ≠ expiredStore := by
  refine ⟨rfl, rfl, by decide⟩

/-- Claim C4 as amended: when the store reads an id as absent (never
created, corrupt, or expired), `updateJob` creates nothing — the store
it leaves is exactly the store its internal read leaves (unchanged
except that an expired entry may have been deleted by that read), and
`getJob` still returns absent afterwards; when a live record exists,
`updateJob` merges the supplied fields over it and writes it back with a
refreshed timestamp. -/
theorem updateJob_contract (st : Store) (id : String) (u : JobUpdate) (now : Nat) :
    ((getJob now st id).2 = none →
       updateJob now st id u = (getJob now st id).1 ∧
       (getJob now (updateJob now st id u) id).2 = none) ∧
    (∀ job, (getJob now st id).2 = some job →
       updateJob now st id u = setEntry st id (some (mergeJob job u now))) := by
  constructor
  · intro h
    cases hl : lookupEntry st id with
    | none =>
      refine ⟨?_, ?_⟩ <;> simp [updateJob, getJob, hl]
    | some f =>
      cases f with
      | none =>
        refine ⟨?_, ?_⟩ <;> simp [updateJob, getJob, hl]
      | some job =>
        by_cases hexp : now - job.timestamp > retentionMs
        · refine ⟨?_, ?_⟩
          · simp [updateJob, getJob, hl, hexp]
          · rw [updateJob_expired now st id u job hl hexp]
            simp [getJob, lookup_remove_self]
        · exfalso
          simp [getJob, hl, hexp] at h
  · intro job h
    cases hl : lookupEntry st id with
    | none => simp [getJob, hl] at h
    | some f =>
      cases f with
      | none => simp [getJob, hl] at h
      | some job2 =>
        by_cases hexp : now - job2.timestamp > retentionMs
        · simp [getJob, hl, hexp] at h
        · have hj : job2 = job := by simpa [getJob, hl, hexp] using h
          subst hj
          exact updateJob_live now st id u job2 hl hexp

theorem updateJob_contract_witness :
    updateJob 9 [("a", (none : JobFile))] "a" procUpdate = [("a", (none : JobFile))] ∧
    (getJob 9 (updateJob 9 [("a", (none : JobFile))] "a" procUpdate) "a").2 = none ∧
    updateJob 9 [("b", some processingJob)] "b" procUpdate
      = setEntry [("b", some processingJob)] "b" (some (mergeJob processingJob procUpdate 9)) :=
  ⟨((updateJob_contract [("a", none)] "a" procUpdate 9).1 rfl).1,
   ((updateJob_contract [("a", none)] "a" procUpdate 9).1 rfl).2,
   (updateJob_contract [("b", some processingJob)] "b" procUpdate 9).2 processingJob rfl⟩

/-- Claim C5: along the lifecycle the submission endpoint and its
detached task drive (create at `pending`, update to `processing`, one
terminal update), the stored record of the job only moves forward in
rank, a terminal record is never mutated, a deleted record never
reappears, and every reachable record keeps `result` and `error`
mutually exclusive and consistent with its status.  The times of the
three writes are arbitrary, so the lazy-expiry deletions are covered. -/
theorem job_lifecycle (st0 : Store) (id : String) (t0 t1 t2 : Nat) (out : PipelineOutcome) :
    forwardStep (jobRecord (createJob t0 st0 id) id)
      (jobRecord (updateJob t1 (createJob t0 st0 id) id procUpdate) id) ∧
    forwardStep (jobRecord (updateJob t1 (createJob t0 st0 id) id procUpdate) id)
      (jobRecord (detachedTask id out t2
        (updateJob t1 (createJob t0 st0 id) id procUpdate)) id) ∧
    exclusiveOpt (jobRecord (createJob t0 st0 id) id) ∧
    exclusiveOpt (jobRecord (updateJob t1 (createJob t0 st0 id) id procUpdate) id) ∧
    exclusiveOpt (jobRecord (detachedTask id out t2
      (updateJob t1 (createJob t0 st0 id) id procUpdate)) id) := by
  have hl1 : lookupEntry (createJob t0 st0 id) id
      = some (some { status := JobStatus.pending, timestamp := t0 }) := by
    simpa [createJob] using lookup_set_self st0 id _
  have hrec1 : jobRecord (createJob t0 st0 id) id
      = some { status := JobStatus.pending, timestamp := t0 } := by
    simp [jobRecord, hl1]
  by_cases h1 : t1 - t0 > retentionMs
  · have hst2 : updateJob t1 (createJob t0 st0 id) id procUpdate
        = removeEntry (createJob t0 st0 id) id :=
      updateJob_expired t1 _ id procUpdate _ hl1 h1
    have hl2 : lookupEntry (updateJob t1 (createJob t0 st0 id) id procUpdate) id = none := by
      rw [hst2]; exact lookup_remove_self _ id
    have hrec2 : jobRecord (updateJob t1 (createJob t0 st0 id) id procUpdate) id = none := by
      simp [jobRecord, hl2]
    have hrec3 : jobRecord (detachedTask id out t2
        (updateJob t1 (createJob t0 st0 id) id procUpdate)) id = none := by
      cases out with
      | ok r => simp [detachedTask, updateJob_entry_absent t2 _ id _ hl2, jobRecord, hl2]
      | err msg => simp [detachedTask, updateJob_entry_absent t2 _ id _ hl2, jobRecord, hl2]
    rw [hrec1, hrec2, hrec3]
    simp [forwardStep, exclusiveOpt]
  · have hst2 : updateJob t1 (createJob t0 st0 id) id procUpdate
        = setEntry (createJob t0 st0 id) id
            (some { status := JobStatus.processing, timestamp := t1 }) :=
      updateJob_live t1 _ id procUpdate _ hl1 h1
    have hl2 : lookupEntry (updateJob t1 (createJob t0 st0 id) id procUpdate) id
        = some (some { status := JobStatus.processing, timestamp := t1 }) := by
      rw [hst2]; exact lookup_set_self _ id _
    have hrec2 : jobRecord (updateJob t1 (createJob t0 st0 id) id procUpdate) id
        = some { status := JobStatus.processing, timestamp := t1 } := by
      simp [jobRecord, hl2]
    by_cases h2 : t2 - t1 > retentionMs
    · have hrec3 : jobRecord (detachedTask id out t2
          (updateJob t1 (createJob t0 st0 id) id procUpdate)) id = none := by
        cases out with
        | ok r =>
          rw [detachedTask, updateJob_expired t2 _ id _ _ hl2 h2]
          simp [jobRecord, lookup_remove_self]
        | err msg =>
          rw [detachedTask, updateJob_expired t2 _ id _ _ hl2 h2]
          simp [jobRecord, lookup_remove_self]
      rw [hrec1, hrec2, hrec3]
      simp [forwardStep, exclusiveOpt, statusRank, isTerminal]
    · cases out with
      | ok r =>
        have hrec3 : jobRecord (detachedTask id (PipelineOutcome.ok r) t2
            (updateJob t1 (createJob t0 st0 id) id procUpdate)) id
            = some { status := JobStatus.completed, result := some r, timestamp := t2 } := by
          rw [detachedTask, updateJob_live t2 _ id _ _ hl2 h2]
          simp [jobRecord, lookup_set_self, mergeJob]
        rw [hrec1, hrec2, hrec3]
        simp [forwardStep, exclusiveOpt, statusRank, isTerminal]
      | err msg =>
        have hrec3 : jobRecord (detachedTask id (PipelineOutcome.err msg) t2
            (updateJob t1 (createJob t0 st0 id) id procUpdate)) id
            = some { status := JobStatus.failed, error := some msg, timestamp := t2 } := by
          rw [detachedTask, updateJob_live t2 _ id _ _ hl2 h2]
          simp [jobRecord, lookup_set_self, mergeJob]
        rw [hrec1, hrec2, hrec3]
        simp [forwardStep, exclusiveOpt, statusRank, isTerminal]

/-- Claim C6: the detached task captures every pipeline failure at its
boundary — the catch arm turns the thrown message into a `failed` record
whose `result` is whatever the record already held (absent along the
real flow), and the task is a total function of the outcome, so nothing
propagates past it; on success it writes `completed` with the result. -/
theorem detachedTask_capture (st : Store) (id : String) (job : AnalysisJob) (now : Nat)
    (hl : lookupEntry st id = some (some job))
    (hlive : ¬ now - job.timestamp > retentionMs) :
    (∀ msg, jobRecord (detachedTask id (PipelineOutcome.err msg) now st) id
       = some { status := JobStatus.failed, result := job.result, error := some msg,
                timestamp := now }) ∧
    (∀ r, jobRecord (detachedTask id (PipelineOutcome.ok r) now st) id
       = some { status := JobStatus.completed, result := some r, error := job.error,
                timestamp := now }) := by
  constructor
  · intro msg
    rw [detachedTask, updateJob_live now st id _ job hl hlive]
    simp [jobRecord, lookup_set_self, mergeJob]
  · intro r
    rw [detachedTask, updateJob_live now st id _ job hl hlive]
    simp [jobRecord, lookup_set_self, mergeJob]

theorem detachedTask_capture_witness :
    jobRecord (detachedTask "j" (PipelineOutcome.err "Request timed out") 5
        [("j", some processingJob)]) "j"
      = some { status := JobStatus.failed, result := none, error := some "Request timed out",
               timestamp := 5 } ∧
    jobRecord (detachedTask "j" (PipelineOutcome.ok { ingredients := [] }) 5
        [("j", some processingJob)]) "j"
      = some { status := JobStatus.completed, result := some { ingredients := [] },
               error := none, timestamp := 5 } :=
  ⟨(detachedTask_capture [("j", some processingJob)] "j" processingJob 5 rfl
      (by decide)).1 "Request timed out",
   (detachedTask_capture [("j", some processingJob)] "j" processingJob 5 rfl
      (by decide)).2 { ingredients := [] }⟩

/-- Claim C7: a submission without an image gets the 400 client-error
response carrying an error message and no job id, and leaves the store
exactly as it was; a status check for any id absent from the store
yields the 404 not-found response. -/
theorem submit_no_image (st : Store) (id k : String) (t0 t1 now : Nat) :
    (postSubmit none id t0 t1 st).1
      = { status := 400, jobId := none, error := some "No image provided" } ∧
    (postSubmit none id t0 t1 st).2 = st ∧
    (lookupEntry st k = none →
       (statusGet (some k) now st).1
         = { status := 404, error := some "Job not found", job := none } ∧
       (statusGet (some k) now st).2 = st) := by
  refine ⟨rfl, rfl, ?_⟩
  intro h
  constructor <;> simp [statusGet, getJob, h]

theorem submit_no_image_witness :
    (postSubmit none "x" 0 1 []).1
      = { status := 400, jobId := none, error := some "No image provided" } ∧
    (statusGet (some "deadbeef") 9 []).1
      = { status := 404, error := some "Job not found", job := none } :=
  ⟨(submit_no_image [] "x" "deadbeef" 0 1 9).1,
   ((submit_no_image [] "x" "deadbeef" 0 1 9).2.2 rfl).1⟩

/-- Keep condition of the cleanup sweep: a parseable record no older
than the window. -/
def cleanupKeeps (now : Nat) (e : String × JobFile) : Bool :=
  match e.2 with
  | some job => ! decide (job.timestamp < now - retentionMs)
  | none => false

theorem cleanup_eq_filter (now : Nat) (st : Store) :
    cleanup now st = st.filter (cleanupKeeps now) := by
  induction st with
  | nil => rfl
  | cons e rest ih =>
    obtain ⟨id, f⟩ := e
    cases f with
    | none => simpa [cleanup_cons_none, List.filter_cons, cleanupKeeps] using ih
    | some job =>
      rw [cleanup_cons_some]
      by_cases hold : job.timestamp < now - retentionMs <;>
        simp [List.filter_cons, cleanupKeeps, hold, ih]

/-- Claim C8: the sweep removes exactly the entries holding a record
strictly older than the retention window together with every entry that
cannot be parsed, and keeps every other entry verbatim (the survivors
are the order-preserving filter of the original entries). -/
theorem cleanup_exact (now : Nat) (st : Store) :
    (∀ (id : String) (f : JobFile),
       (id, f) ∈ cleanup now st ↔
         ((id, f) ∈ st ∧ ∃ job, f = some job ∧ ¬ job.timestamp < now - retentionMs)) ∧
    cleanup now st = st.filter (cleanupKeeps now) := by
  refine ⟨?_, cleanup_eq_filter now st⟩
  intro id f
  rw [cleanup_eq_filter now st, List.mem_filter]
  constructor
  · rintro ⟨hmem, hkeep⟩
    refine ⟨hmem, ?_⟩
    cases f with
    | none => simp [cleanupKeeps] at hkeep
    | some job =>
      refine ⟨job, rfl, ?_⟩
      simpa [cleanupKeeps] using hkeep
  · rintro ⟨hmem, job, rfl, hyoung⟩
    exact ⟨hmem, by simpa [cleanupKeeps] using hyoung⟩

/-- Claim C9: `createJob` unconditionally overwrites the entry of the id
with a fresh `pending` record stamped now, discarding any previous
status, result or error, and touches no other id; in particular a reused
id resets a finished job to `pending`. -/
theorem createJob_overwrites (st : Store) (id : String) (now : Nat) :
    lookupEntry (createJob now st id) id
      = some (some { status := JobStatus.pending, timestamp := now }) ∧
    ∀ k, k ≠ id → lookupEntry (createJob now st id) k = lookupEntry st k := by
  constructor
  · simpa [createJob] using lookup_set_self st id _
  · intro k hk
    simpa [createJob] using lookup_set_ne st id k _ hk

theorem createJob_overwrites_witness :
    lookupEntry (createJob 7 finishedStore "a") "a"
      = some (some { status := JobStatus.pending, timestamp := 7 }) ∧
    lookupEntry (createJob 7 finishedStore "b") "a" = lookupEntry finishedStore "a" :=
  ⟨(createJob_overwrites finishedStore "a" 7).1,
   (createJob_overwrites finishedStore "b" 7).2 "a" (by decide)⟩

/-- Claim C1 counterexample: on a response whose ingredient is
classified `unhealthy` — outside the closed set — `analyzeImage` does
not fail at all: it returns a result carrying that very value. -/
theorem analyzeImage_unhealthy_passes :
    analyzeImageFromText unhealthyResponse
      = some { ingredients :=
                 [{ name := "Sugar", classification := "unhealthy", explanation := "bad",
                    papers := [{ title := "Research about Sugar",
                                 url := "https://pubmed.ncbi.nlm.nih.gov/?term=Sugar" }] }] } ∧
    "unhealthy" ∉ (["high_risk", "moderate_risk", "healthy"] : List String) :=
  ⟨rfl, by decide⟩

/-- Claim C1 as amended: `analyzeImage` never validates ingredient
values against the closed set — any parsed response whose `ingredients`
member is an array of non-null values succeeds, a present string
classification (such as `unhealthy`) passing through verbatim and
missing names or explanations causing no failure.  It fails exactly
when the content is empty — throwing the distinct message `No content
in response` — or when the cleaned text does not parse, the
`ingredients` member is not an array, or an array element is JSON
`null` (property access in the map callback throws), each of which the
route throws as `Failed to parse analysis results`; no SchemaViolation
over the closed set exists on this path. -/
theorem analyzeImage_lenient :
    (∀ (content : String) (parsed : JsonVal) (elems : List JsonVal), content ≠ "" →
       JsonVal.parse (cleanJsonResponse content) = some parsed →
       ingredientsArrayOf parsed = some elems → elems.any isNullVal = false →
       (analyzeImageFromText content).isSome = true) ∧
    (∀ (content : String) (parsed : JsonVal) (elems : List JsonVal), content ≠ "" →
       JsonVal.parse (cleanJsonResponse content) = some parsed →
       ingredientsArrayOf parsed = some elems → elems.any isNullVal = true →
       analyzeImageRun content = Except.error "Failed to parse analysis results") ∧
    (∀ (content : String) (parsed : JsonVal), content ≠ "" →
       JsonVal.parse (cleanJsonResponse content) = some parsed →
       ingredientsArrayOf parsed = none →
       analyzeImageRun content = Except.error "Failed to parse analysis results") ∧
    (∀ (content : String), content ≠ "" →
       JsonVal.parse (cleanJsonResponse content) = none →
       analyzeImageRun content = Except.error "Failed to parse analysis results") ∧
    analyzeImageRun "" = Except.error "No content in response" ∧
    (∀ (e : JsonVal) (c : String),
       JsonVal.getField e "classification" = some (JsonVal.str c) →
       (mkResultIngredient e).classification = c) ∧
    (∀ (content : String), analyzeImageFromText content = none ↔
       ∃ msg, analyzeImageRun content = Except.error msg) := by
  refine ⟨?_, ?_, ?_, ?_, rfl, ?_, ?_⟩
  · intro content parsed elems hne hp hi hnull
    simp [analyzeImageFromText, analyzeImageRun, hne, hp, hi, hnull]
  · intro content parsed elems hne hp hi hnull
    simp [analyzeImageRun, hne, hp, hi, hnull]
  · intro content parsed hne hp hi
    simp [analyzeImageRun, hne, hp, hi]
  · intro content hne hp
    simp [analyzeImageRun, hne, hp]
  · intro e c hc
    simp [mkResultIngredient, jsFieldString, hc]
  · intro content
    unfold analyzeImageFromText
    cases hrun : analyzeImageRun content with
    | ok r => simp
    | error msg => simp

theorem analyzeImage_lenient_witness :
    (analyzeImageFromText unhealthyResponse).isSome = true ∧
    (analyzeImageFromText "\x7b\"ingredients\": [\x7b\x7d]\x7d").isSome = true ∧
    analyzeImageRun "\x7b\"ingredients\": [null]\x7d"
      = Except.error "Failed to parse analysis results" ∧
    analyzeImageRun "\x7b\"ingredients\": \"gibberish\"\x7d"
      = Except.error "Failed to parse analysis results" ∧
    analyzeImageRun "not json" = Except.error "Failed to parse analysis results" ∧
    (mkResultIngredient unhealthyElem).classification = "unhealthy" :=
  ⟨analyzeImage_lenient.1 unhealthyResponse unhealthyParsed [unhealthyElem]
     (by decide) rfl rfl rfl,
   analyzeImage_lenient.1 "\x7b\"ingredients\": [\x7b\x7d]\x7d"
     (JsonVal.obj [("ingredients", JsonVal.arr [JsonVal.obj []])]) [JsonVal.obj []]
     (by decide) rfl rfl rfl,
   analyzeImage_lenient.2.1 "\x7b\"ingredients\": [null]\x7d"
     (JsonVal.obj [("ingredients", JsonVal.arr [JsonVal.null])]) [JsonVal.null]
     (by decide) rfl rfl rfl,
   analyzeImage_lenient.2.2.1 "\x7b\"ingredients\": \"gibberish\"\x7d"
     (JsonVal.obj [("ingredients", JsonVal.str "gibberish")]) (by decide) rfl rfl,
   analyzeImage_lenient.2.2.2.1 "not json" (by decide) rfl,
   analyzeImage_lenient.2.2.2.2.2.1 unhealthyElem "unhealthy" rfl⟩

/-- Claim C2 counterexample: a response holding two top-level JSON
objects.  The spec's described fallback — parse the first top-level
object found by brace-matching — succeeds on it, but both the async
route (which has no fallback at all) and the alternate route's
`extractJsonFromText` (whose regex spans greedily from the first brace
to the last) fail, so the claimed "fails if and only if both attempts
fail" does not describe the code. -/
theorem parse_fallback_counterexample :
    extractJsonFromText twoObjectResponse = none ∧
    analyzeImageFromText twoObjectResponse = none ∧
    (firstTopLevelObject (cleanJsonResponse twoObjectResponse)).bind JsonVal.parse
      = some (JsonVal.obj [("a", JsonVal.str "x")]) :=
  ⟨rfl, rfl, rfl⟩

/-- Claim C2 as amended: the async route strips fences and attempts only
the direct parse, failing whenever it fails; the alternate route's
`extractJsonFromText` retries exactly on the greedy first-brace-to-last-
brace regex match (not on the first top-level object); and a valid-JSON
response wrapped in a markdown fence parses successfully on both
paths. -/
theorem parse_paths (s : String) :
    (∀ j, JsonVal.parse (cleanJsonResponse s) = some j → extractJsonFromText s = some j) ∧
    (JsonVal.parse (cleanJsonResponse s) = none →
       extractJsonFromText s
         = (match jsonObjectMatch (cleanJsonResponse s).data with
            | some m => JsonVal.parse (String.mk m)
            | none => none)) ∧
    (JsonVal.parse (cleanJsonResponse s) = none → analyzeImageFromText s = none) ∧
    extractJsonFromText fencedResponse = some (JsonVal.obj [("ingredients", JsonVal.arr [])]) ∧
    analyzeImageFromText fencedResponse = some { ingredients := [] } := by
  refine ⟨?_, ?_, ?_, rfl, rfl⟩
  · intro j h
    simp [extractJsonFromText, h]
  · intro h
    simp [extractJsonFromText, h]
  · intro h
    by_cases hne : s = "" <;> simp [analyzeImageFromText, analyzeImageRun, hne, h]

theorem parse_paths_witness :
    extractJsonFromText "\x7b\"ok\": true\x7d" = some (JsonVal.obj [("ok", JsonVal.bool true)]) ∧
    extractJsonFromText "no json here" = none :=
  ⟨(parse_paths "\x7b\"ok\": true\x7d").1 _ rfl,
   (parse_paths "no json here").2.1 rfl⟩

/-- Claim C10: whenever `analyzeImage` succeeds, every ingredient of the
result carries exactly one citation, titled `Research about` plus the
ingredient name, whose url is the PubMed search URL for the URL-encoded
name; in particular no completed job has an ingredient with an empty
papers list. -/
theorem papers_singleton (content : String) (r : AnalysisResult)
    (h : analyzeImageFromText content = some r) :
    ∀ ing ∈ r.ingredients,
      ing.papers = [{ title := "Research about " ++ ing.name,
                      url := pubmedBaseUrl ++ encodeURIComponent ing.name }] := by
  intro ing hing
  unfold analyzeImageFromText at h
  cases hrun : analyzeImageRun content with
  | error msg => rw [hrun] at h; exact absurd h (by simp)
  | ok r2 =>
    rw [hrun] at h
    have hr := Option.some.inj h
    subst hr
    unfold analyzeImageRun at hrun
    by_cases hne : content = ""
    · rw [if_pos hne] at hrun; exact absurd hrun (by simp)
    · rw [if_neg hne] at hrun
      cases hp : JsonVal.parse (cleanJsonResponse content) with
      | none => rw [hp] at hrun; exact absurd hrun (by simp)
      | some parsed =>
        rw [hp] at hrun
        have hrun2 : (match ingredientsArrayOf parsed with
            | none => Except.error "Failed to parse analysis results"
            | some elems =>
              if elems.any isNullVal then
                Except.error "Failed to parse analysis results"
              else Except.ok { ingredients := elems.map mkResultIngredient })
            = Except.ok r2 := hrun
        cases hq : ingredientsArrayOf parsed with
        | none => rw [hq] at hrun2; exact absurd hrun2 (by simp)
        | some elems =>
          rw [hq] at hrun2
          have hrun3 : (if elems.any isNullVal then
                (Except.error "Failed to parse analysis results" : Except String AnalysisResult)
              else Except.ok { ingredients := elems.map mkResultIngredient })
              = Except.ok r2 := hrun2
          by_cases hnull : elems.any isNullVal
          · rw [if_pos hnull] at hrun3; exact absurd hrun3 (by simp)
          · rw [if_neg hnull] at hrun3
            have hr2 := Except.ok.inj hrun3
            subst hr2
            obtain ⟨e, he, rfl⟩ := List.mem_map.mp hing
            rfl

theorem papers_singleton_witness :
    (mkResultIngredient healthyElem).papers
      = [{ title := "Research about " ++ (mkResultIngredient healthyElem).name,
           url := pubmedBaseUrl ++ encodeURIComponent (mkResultIngredient healthyElem).name }] :=
  papers_singleton healthyResponse { ingredients := [mkResultIngredient healthyElem] } rfl
    (mkResultIngredient healthyElem) (by simp)
